import Mathlib

attribute [local semireducible] Rat.mul Rat.add Rat.sub Rat.inv Rat.ofScientific

/-!
Shallow embedding of the SMA-crossover trading core (signals, backtester,
portfolio aggregation) of the CashFlow repository, together with proofs
about its behaviour.  Python floats are modelled as exact rationals; the
pandas NaN used for a not-yet-defined SMA value is modelled as `Option ℚ`
with `none` for NaN (all NaN comparisons are false, as in Python); the
float value `inf` produced by the aggregator is modelled by a dedicated
sentinel constructor.  Timestamps are modelled as natural numbers.
-/

/-- Banker's rounding (round half to even) of a rational to an integer,
matching Python's built-in `round`. -/
def roundHalfEven (x : ℚ) : ℤ :=
  let f := ⌊x⌋
  let r := x - f
  if r < 1/2 then f
  else if 1/2 < r then f + 1
  else if f % 2 = 0 then f else f + 1

/-- `round(x, 2)` of Python: round to two decimal places. -/
def round2 (x : ℚ) : ℚ := (roundHalfEven (x * 100) : ℚ) / 100

/-- Python's `int()` applied to a float: truncation toward zero. -/
def truncInt (x : ℚ) : ℤ := if 0 ≤ x then ⌊x⌋ else ⌈x⌉

/-! ## Configuration constants (src/config.py) -/

/-- PORTFOLIO_SIZE = 10000 -/
def PORTFOLIO_SIZE : ℚ := 10000

/-- MAX_POSITION_PCT = 0.10 -/
def MAX_POSITION_PCT : ℚ := 1/10

/-- RISK_PER_TRADE_PCT = 0.02 -/
def RISK_PER_TRADE_PCT : ℚ := 1/50

/-- STOP_LOSS_PCT = 0.05 -/
def STOP_LOSS_PCT : ℚ := 1/20

/-- USE_STOP_LOSS = True -/
def USE_STOP_LOSS : Bool := true

/-! ## Data model -/

/-- One row of the price DataFrame as used by the core: timestamp
(`Datetime` column, modelled as ℕ), close, low, and the SMA column, which
is NaN (`none`) for the warm-up rows.  Open/High/Volume are never read by
the backtester or the signal generator and are omitted. -/
structure Bar where
  dt : ℕ
  close : ℚ
  low : ℚ
  sma : Option ℚ
deriving DecidableEq

/-- Default bar used only as the (unreachable) default of `List.getLastD`. -/
def dummyBar : Bar := ⟨0, 0, 0, none⟩

/-- Comparison `x <= y` where `y` may be NaN: false on NaN, as in Python. -/
def nanLe (x : ℚ) (y : Option ℚ) : Bool :=
  match y with
  | none => false
  | some v => decide (x ≤ v)

/-- Comparison `x > y` where `y` may be NaN: false on NaN. -/
def nanGt (x : ℚ) (y : Option ℚ) : Bool :=
  match y with
  | none => false
  | some v => decide (v < x)

/-- Comparison `x >= y` where `y` may be NaN: false on NaN. -/
def nanGe (x : ℚ) (y : Option ℚ) : Bool :=
  match y with
  | none => false
  | some v => decide (v ≤ x)

/-- Comparison `x < y` where `y` may be NaN: false on NaN. -/
def nanLt (x : ℚ) (y : Option ℚ) : Bool :=
  match y with
  | none => false
  | some v => decide (x < v)

/-- `crossed_above = (prev_price <= prev_sma) and (price > sma)`
(identical in src/backtester.py and src/signals.py). -/
def crossed_above (previous current : Bar) : Bool :=
  nanLe previous.close previous.sma && nanGt current.close current.sma

/-- `crossed_below = (prev_price >= prev_sma) and (price < sma)`. -/
def crossed_below (previous current : Bar) : Bool :=
  nanGe previous.close previous.sma && nanLt current.close current.sma

/-- The `exit_reason` strings of the trade dicts of src/backtester.py. -/
inductive ExitReason where
  | stop_loss
  | signal
  | end_of_data
deriving DecidableEq

/-- One trade dict appended to `trades` in src/backtester.py.  The price
and profit fields hold the values rounded with `round(_, 2)` exactly as
the code stores them; the dates are the bar timestamps. -/
structure Trade where
  entry_date : ℕ
  entry_price : ℚ
  exit_date : ℕ
  exit_price : ℚ
  profit : ℚ
  profit_pct : ℚ
  exit_reason : ExitReason
deriving DecidableEq

/-- Builds the trade dict of src/backtester.py lines 97-105 (also used for
the end-of-data close, lines 116-124): profit and profit_pct are computed
from the unrounded entry/exit prices and every numeric field is stored
rounded to two decimals. -/
def mkTrade (entryDate : ℕ) (entryPrice : ℚ) (exitDate : ℕ) (exitPrice : ℚ)
    (reason : ExitReason) : Trade :=
  { entry_date := entryDate
    entry_price := round2 entryPrice
    exit_date := exitDate
    exit_price := round2 exitPrice
    profit := round2 (exitPrice - entryPrice)
    profit_pct := round2 ((exitPrice - entryPrice) / entryPrice * 100)
    exit_reason := reason }

/-- The mutable loop state of `backtest_strategy`: `in_position`,
`entry_price`, `entry_date`, `stop_loss_price`, the `trades` list and the
two exit counters. -/
structure BTState where
  inPos : Bool
  entryPrice : ℚ
  entryDate : ℕ
  stopLossPrice : ℚ
  trades : List Trade
  stopLossExits : ℕ
  signalExits : ℕ
deriving DecidableEq

/-- Initial loop state of `backtest_strategy` (lines 34-42). -/
def initState : BTState :=
  { inPos := false
    entryPrice := 0
    entryDate := 0
    stopLossPrice := 0
    trades := []
    stopLossExits := 0
    signalExits := 0 }

/-- One iteration of the `for i in range(1, len(df))` loop of
`backtest_strategy` (src/backtester.py lines 44-107), for the pair
(previous, current) = (df.iloc[i-1], df.iloc[i]).  Parameters `u` and `s`
are the USE_STOP_LOSS and STOP_LOSS_PCT configuration values. -/
def btStep (u : Bool) (s : ℚ) (st : BTState) (previous current : Bar) : BTState :=
  if current.sma.isNone || previous.sma.isNone then st
  else if !st.inPos && crossed_above previous current then
    { st with
      inPos := true
      entryPrice := current.close
      entryDate := current.dt
      stopLossPrice := if u then current.close * (1 - s) else 0 }
  else if st.inPos then
    if u && decide (current.low ≤ st.stopLossPrice) then
      { st with
        inPos := false
        stopLossExits := st.stopLossExits + 1
        trades := st.trades ++
          [mkTrade st.entryDate st.entryPrice current.dt st.stopLossPrice ExitReason.stop_loss] }
    else if crossed_below previous current then
      { st with
        inPos := false
        signalExits := st.signalExits + 1
        trades := st.trades ++
          [mkTrade st.entryDate st.entryPrice current.dt current.close ExitReason.signal] }
    else st
  else st

/-- The whole bar loop, driven by the previous bar and the list of bars
still to be visited as the current bar. -/
def btRun (u : Bool) (s : ℚ) (prev : Bar) (bars : List Bar) (st : BTState) : BTState :=
  match bars with
  | [] => st
  | c :: rest => btRun u s c rest (btStep u s st prev c)

/-- Runs the loop over a whole bar list: bar 0 is only ever a previous
bar, bars 1.. are visited as the current bar. -/
def btRunAll (u : Bool) (s : ℚ) (bars : List Bar) : BTState :=
  match bars with
  | [] => initState
  | b :: rest => btRun u s b rest initState

/-- The per-asset result dict of `backtest_strategy`. -/
structure BacktestResult where
  ticker : String
  total_trades : ℕ
  winning_trades : ℕ
  losing_trades : ℕ
  win_rate : ℚ
  gross_profit : ℚ
  gross_loss : ℚ
  total_profit : ℚ
  avg_profit : ℚ
  avg_profit_pct : ℚ
  stop_loss_exits : ℕ
  signal_exits : ℕ
  trades : List Trade
deriving DecidableEq

/-- Statistics block of `backtest_strategy` (src/backtester.py lines
126-168): the zeroed dict when there are no trades, otherwise the
aggregates computed from the stored (already rounded) per-trade profits,
with the dict-level numbers rounded once more. -/
def mkStats (ticker : String) (trades : List Trade) (slExits sigExits : ℕ) :
    BacktestResult :=
  if trades.isEmpty then
    { ticker := ticker
      total_trades := 0
      winning_trades := 0
      losing_trades := 0
      win_rate := 0
      gross_profit := 0
      gross_loss := 0
      total_profit := 0
      avg_profit := 0
      avg_profit_pct := 0
      stop_loss_exits := 0
      signal_exits := 0
      trades := [] }
  else
    let winning := trades.filter (fun t => 0 < t.profit)
    let losing := trades.filter (fun t => t.profit ≤ 0)
    let gross_profit := (winning.map (·.profit)).sum
    let gross_loss := (losing.map (·.profit)).sum
    let total_profit := gross_profit + gross_loss
    { ticker := ticker
      total_trades := trades.length
      winning_trades := winning.length
      losing_trades := losing.length
      win_rate := round2 ((winning.length : ℚ) / (trades.length : ℚ) * 100)
      gross_profit := round2 gross_profit
      gross_loss := round2 gross_loss
      total_profit := round2 total_profit
      avg_profit := round2 (total_profit / (trades.length : ℚ))
      avg_profit_pct := round2 (((trades.map (·.profit_pct)).sum) / (trades.length : ℚ))
      stop_loss_exits := slExits
      signal_exits := sigExits
      trades := trades }

/-- `backtest_strategy(ticker, df)` of src/backtester.py, generic in the
USE_STOP_LOSS / STOP_LOSS_PCT configuration: `None` for fewer than 21
rows, otherwise the loop over consecutive bar pairs followed by the
forced end-of-data close (lines 110-124) and the statistics block. -/
def backtestWith (u : Bool) (s : ℚ) (ticker : String) (bars : List Bar) :
    Option BacktestResult :=
  if bars.length < 21 then none
  else
    let fin := btRunAll u s bars
    let last := bars.getLastD dummyBar
    let trades :=
      if fin.inPos then
        fin.trades ++ [mkTrade fin.entryDate fin.entryPrice last.dt last.close ExitReason.end_of_data]
      else fin.trades
    some (mkStats ticker trades fin.stopLossExits fin.signalExits)

/-- `backtest_strategy` with the configuration constants of src/config.py. -/
def backtest_strategy (ticker : String) (bars : List Bar) : Option BacktestResult :=
  backtestWith USE_STOP_LOSS STOP_LOSS_PCT ticker bars

/-! ## Signal generation and position sizing (src/signals.py) -/

/-- The position-size multiplier tiers of `calculate_position_size`
(src/signals.py lines 30-37). -/
def position_multiplier (signal_strength : ℚ) : ℚ :=
  if 5 < signal_strength then 1
  else if 2 < signal_strength then 3/4
  else if 0 < signal_strength then 1/2
  else 1/4

/-- `position_dollars = min(max_position_dollars * position_multiplier,
max_position_dollars)` (src/signals.py line 39). -/
def position_dollars (signal_strength portfolio_size : ℚ) : ℚ :=
  min (portfolio_size * MAX_POSITION_PCT * position_multiplier signal_strength)
    (portfolio_size * MAX_POSITION_PCT)

/-- The position dict returned by `calculate_position_size`. -/
structure PositionSize where
  shares : ℤ
  dollars : ℚ
  position_pct : ℚ
  risk_dollars : ℚ
  stop_loss_price : ℚ
  stop_loss_pct : ℚ
deriving DecidableEq

/-- `calculate_position_size(price, signal_strength, portfolio_size)`
(src/signals.py lines 10-53).  The code divides by `price` without any
check; `none` models the uncaught ZeroDivisionError Python raises when
`price == 0`, and `int()` truncates the share count toward zero. -/
def calculate_position_size (price signal_strength portfolio_size : ℚ) :
    Option PositionSize :=
  let risk_dollars := portfolio_size * RISK_PER_TRADE_PCT
  let pd := position_dollars signal_strength portfolio_size
  if price = 0 then none
  else
    let shares := truncInt (pd / price)
    let actual_dollars := (shares : ℚ) * price
    let stop_loss_price := price * (1 - STOP_LOSS_PCT)
    some
      { shares := shares
        dollars := round2 actual_dollars
        position_pct := round2 (actual_dollars / portfolio_size * 100)
        risk_dollars := round2 risk_dollars
        stop_loss_price := round2 stop_loss_price
        stop_loss_pct := STOP_LOSS_PCT * 100 }

/-- The four signal strings of `generate_current_signal`. -/
inductive SignalKind where
  | strong_buy
  | buy
  | sell
  | hold
deriving DecidableEq

/-- The signal dict returned by `generate_current_signal`.  The
`timestamp` entry (wall-clock `datetime.now()`) is impure and is not
modelled.  `sma` and `distance_pct` are NaN (`none`) when the current SMA
is NaN. -/
structure SignalRec where
  ticker : String
  signal : SignalKind
  price : ℚ
  sma : Option ℚ
  distance_pct : Option ℚ
  crossed_above : Bool
  crossed_below : Bool
  position : Option PositionSize
deriving DecidableEq

/-- `generate_current_signal(df, ticker)` (src/signals.py lines 56-107),
with `previous = df.iloc[-2]` and `current = df.iloc[-1]`.  The division
`(price - sma) / sma` is modelled with total rational division (the code
would raise on `sma == 0`; no claim touches that point). -/
def generate_current_signal (previous current : Bar) (ticker : String) : SignalRec :=
  let price := current.close
  let sma := current.sma
  let distance_from_sma : Option ℚ := sma.map (fun v => (price - v) / v * 100)
  let ca := crossed_above previous current
  let cb := crossed_below previous current
  let signal : SignalKind :=
    if ca then SignalKind.strong_buy
    else if nanGt price sma then SignalKind.buy
    else if cb then SignalKind.sell
    else SignalKind.hold
  let position : Option PositionSize :=
    if signal = SignalKind.strong_buy ∨ signal = SignalKind.buy then
      calculate_position_size price (distance_from_sma.getD 0) PORTFOLIO_SIZE
    else none
  { ticker := ticker
    signal := signal
    price := round2 price
    sma := sma.map round2
    distance_pct := distance_from_sma.map round2
    crossed_above := ca
    crossed_below := cb
    position := position }

/-! ## Portfolio aggregation (src/portfolio.py) -/

/-- A Python float that may be the value `float('inf')` produced at
src/portfolio.py line 97. -/
inductive PyFloat where
  | val (q : ℚ)
  | inf
deriving DecidableEq

/-- Python's `round(_, 2)` on such a value: `round(inf, 2)` is `inf`. -/
def pyRound2 : PyFloat → PyFloat
  | PyFloat.val q => PyFloat.val (round2 q)
  | PyFloat.inf => PyFloat.inf

/-- The best/worst performer sub-dicts of the portfolio summary. -/
structure Performer where
  ticker : String
  profit : ℚ
  win_rate : ℚ
deriving DecidableEq

/-- A dict value that is a string in one branch of the code and a bool in
the other (`stop_loss_enabled` is the literal string `'False'` for the
empty summary but the boolean USE_STOP_LOSS otherwise). -/
inductive StrOrBool where
  | str (s : String)
  | bool (b : Bool)
deriving DecidableEq

/-- The dict returned by `calculate_portfolio_summary`. -/
structure PortfolioSummary where
  total_stocks_analyzed : ℕ
  profitable_stocks : ℕ
  unprofitable_stocks : ℕ
  total_trades : ℕ
  winning_trades : ℕ
  losing_trades : ℕ
  overall_win_rate : ℚ
  gross_profit : ℚ
  gross_loss : ℚ
  net_profit : ℚ
  avg_profit_pct_per_stock : ℚ
  profit_factor : PyFloat
  best_performer : Performer
  worst_performer : Performer
  is_profitable : String
  stop_loss_exits : ℕ
  signal_exits : ℕ
  worst_trade_pct : ℚ
  stop_loss_pct : ℚ
  stop_loss_enabled : StrOrBool
deriving DecidableEq

/-- The string literals used by src/portfolio.py. -/
def notApplicable : String := "N/A"

/-- The string `'True'`. -/
def strTrue : String := "True"

/-- The string `'False'`. -/
def strFalse : String := "False"

/-- Python's `max(results, key=total_profit)`: keeps the first of equals. -/
def maxByProfit (h : BacktestResult) (t : List BacktestResult) : BacktestResult :=
  t.foldl (fun acc r => if acc.total_profit < r.total_profit then r else acc) h

/-- Python's `min(results, key=total_profit)`: keeps the first of equals. -/
def minByProfit (h : BacktestResult) (t : List BacktestResult) : BacktestResult :=
  t.foldl (fun acc r => if r.total_profit < acc.total_profit then r else acc) h

/-- Python's `min` of a nonempty list of rationals. -/
def listMinQ (h : ℚ) (t : List ℚ) : ℚ :=
  t.foldl (fun m x => if x < m then x else m) h

/-- The zeroed summary dict returned for an empty valid-result list
(src/portfolio.py lines 58-80). -/
def emptyPortfolioSummary : PortfolioSummary :=
  { total_stocks_analyzed := 0
    profitable_stocks := 0
    unprofitable_stocks := 0
    total_trades := 0
    winning_trades := 0
    losing_trades := 0
    overall_win_rate := 0
    gross_profit := 0
    gross_loss := 0
    net_profit := 0
    avg_profit_pct_per_stock := 0
    profit_factor := PyFloat.val 0
    best_performer := { ticker := notApplicable, profit := 0, win_rate := 0 }
    worst_performer := { ticker := notApplicable, profit := 0, win_rate := 0 }
    is_profitable := strFalse
    stop_loss_exits := 0
    signal_exits := 0
    worst_trade_pct := 0
    stop_loss_pct := 0
    stop_loss_enabled := StrOrBool.str strFalse }

/-- `calculate_portfolio_summary(backtest_results)` (src/portfolio.py
lines 45-145).  `None` entries are filtered out first; an empty valid
list yields the zeroed dict, otherwise the aggregates. -/
def calculate_portfolio_summary (backtest_results : List (Option BacktestResult)) :
    PortfolioSummary :=
  match backtest_results.filterMap id with
  | [] => emptyPortfolioSummary
  | v0 :: vrest =>
    let vs := v0 :: vrest
    let total_stocks := vs.length
    let profitable_stocks := (vs.filter (fun r => 0 < r.total_profit)).length
    let total_trades := (vs.map (·.total_trades)).sum
    let winning_trades := (vs.map (·.winning_trades)).sum
    let losing_trades := (vs.map (·.losing_trades)).sum
    let gross_profit := (vs.map (·.gross_profit)).sum
    let gross_loss := (vs.map (·.gross_loss)).sum
    let net_profit := gross_profit + gross_loss
    let overall_win_rate : ℚ :=
      if 0 < total_trades then (winning_trades : ℚ) / (total_trades : ℚ) * 100 else 0
    let avg_profit_pct := ((vs.map (·.avg_profit_pct)).sum) / (total_stocks : ℚ)
    let profit_factor : PyFloat :=
      if gross_loss ≠ 0 then PyFloat.val |gross_profit / gross_loss| else PyFloat.inf
    let best := maxByProfit v0 vrest
    let worst := minByProfit v0 vrest
    let all_trades := (vs.map (·.trades)).flatten
    let worst_trade_pct : ℚ :=
      match all_trades with
      | [] => 0
      | t :: ts => listMinQ t.profit_pct (ts.map (·.profit_pct))
    { total_stocks_analyzed := total_stocks
      profitable_stocks := profitable_stocks
      unprofitable_stocks := total_stocks - profitable_stocks
      total_trades := total_trades
      winning_trades := winning_trades
      losing_trades := losing_trades
      overall_win_rate := round2 overall_win_rate
      gross_profit := round2 gross_profit
      gross_loss := round2 gross_loss
      net_profit := round2 net_profit
      avg_profit_pct_per_stock := round2 avg_profit_pct
      profit_factor := pyRound2 profit_factor
      best_performer := { ticker := best.ticker, profit := best.total_profit, win_rate := best.win_rate }
      worst_performer := { ticker := worst.ticker, profit := worst.total_profit, win_rate := worst.win_rate }
      is_profitable := if 0 < net_profit then strTrue else strFalse
      stop_loss_exits := (vs.map (·.stop_loss_exits)).sum
      signal_exits := (vs.map (·.signal_exits)).sum
      worst_trade_pct := round2 worst_trade_pct
      stop_loss_pct := STOP_LOSS_PCT * 100
      stop_loss_enabled := StrOrBool.bool USE_STOP_LOSS }

/-! ## Concrete inputs used by counterexamples and witnesses -/

/-- Ticker used by concrete runs. -/
def tkT : String := "T"

/-- Ticker of the first artificial aggregation input. -/
def tkA : String := "A"

/-- Ticker of the second artificial aggregation input. -/
def tkB : String := "B"

/-- Bar `i` of a 21-bar series whose SMA is NaN until index 18, with an
upward crossover at index 19 (entry at close 10.02) and a bar at index 20
whose low 9 is under the stop price 10.02 * 0.95 = 9.519 while the close
9 also crosses below the SMA 9.5. -/
def mkStopBar (i : ℕ) : Bar :=
  if i = 20 then ⟨20, 9, 9, some (19/2)⟩
  else if i = 19 then ⟨19, 10.02, 10, some 10⟩
  else if i = 18 then ⟨18, 10, 10, some (21/2)⟩
  else ⟨i, 10, 10, none⟩

/-- 21-bar series triggering one stop-loss exit. -/
def barsStop : List Bar := (List.range 21).map mkStopBar

/-- Bar `i` of a 21-bar series with an entry at index 19 (close 10.5) and
a final bar whose SMA is NaN and whose close 10.001 has three decimals,
so the position is still open after the last bar. -/
def mkEodBar (i : ℕ) : Bar :=
  if i = 20 then ⟨20, 10.001, 10, none⟩
  else if i = 19 then ⟨19, 10.5, 10.4, some 10⟩
  else if i = 18 then ⟨18, 10, 10, some (21/2)⟩
  else ⟨i, 10, 10, none⟩

/-- 21-bar series left in position at the end of data. -/
def barsEod : List Bar := (List.range 21).map mkEodBar

/-- Bar `i` of a 21-bar series with strictly ascending timestamps whose
only upward crossover happens on the very last bar (close `x > 10`). -/
def mkLastEntryBar (x : ℚ) (i : ℕ) : Bar :=
  if i = 20 then ⟨20, x, x, some 10⟩
  else if i = 19 then ⟨19, 10, 10, some (21/2)⟩
  else ⟨i, 10, 10, none⟩

/-- 21-bar series entering a position on the last bar. -/
def lastEntryBars (x : ℚ) : List Bar := (List.range 21).map (mkLastEntryBar x)

/-- Bar `i` of a 21-bar series with an entry at close 10.123 (three
decimals) at index 19, closed by end of data at close 11. -/
def mkRoundBar (i : ℕ) : Bar :=
  if i = 20 then ⟨20, 11, 10.9, none⟩
  else if i = 19 then ⟨19, 10.123, 10.1, some 10⟩
  else if i = 18 then ⟨18, 10, 10, some (21/2)⟩
  else ⟨i, 10, 10, none⟩

/-- 21-bar series whose entry price has three decimal places. -/
def barsRound : List Bar := (List.range 21).map mkRoundBar

/-! ## Helper lemmas -/

/-- Case analysis of one loop iteration: it either leaves the state
unchanged, opens a position (only from a flat state, with no trade
appended), or closes the open position by a stop-loss or signal exit. -/
lemma btStep_spec (u : Bool) (s : ℚ) (st : BTState) (p c : Bar) :
    btStep u s st p c = st ∨
    (st.inPos = false ∧ btStep u s st p c =
      { st with
        inPos := true
        entryPrice := c.close
        entryDate := c.dt
        stopLossPrice := if u then c.close * (1 - s) else 0 }) ∨
    (st.inPos = true ∧ btStep u s st p c =
      { st with
        inPos := false
        stopLossExits := st.stopLossExits + 1
        trades := st.trades ++
          [mkTrade st.entryDate st.entryPrice c.dt st.stopLossPrice ExitReason.stop_loss] }) ∨
    (st.inPos = true ∧ btStep u s st p c =
      { st with
        inPos := false
        signalExits := st.signalExits + 1
        trades := st.trades ++
          [mkTrade st.entryDate st.entryPrice c.dt c.close ExitReason.signal] }) := by
  unfold btStep
  by_cases h0 : (c.sma.isNone || p.sma.isNone) = true
  · rw [if_pos h0]
    exact Or.inl rfl
  · rw [if_neg h0]
    by_cases h1 : (!st.inPos && crossed_above p c) = true
    · rw [if_pos h1]
      refine Or.inr (Or.inl ⟨?_, rfl⟩)
      simpa using ((Bool.and_eq_true _ _).mp h1).1
    · rw [if_neg h1]
      by_cases h2 : st.inPos = true
      · rw [if_pos h2]
        by_cases h3 : (u && decide (c.low ≤ st.stopLossPrice)) = true
        · rw [if_pos h3]
          exact Or.inr (Or.inr (Or.inl ⟨h2, rfl⟩))
        · rw [if_neg h3]
          by_cases h4 : crossed_below p c = true
          · rw [if_pos h4]
            exact Or.inr (Or.inr (Or.inr ⟨h2, rfl⟩))
          · rw [if_neg h4]
            exact Or.inl rfl
      · rw [if_neg h2]
        exact Or.inl rfl

/-! ## C1: exit priority of the stop-loss over the signal exit -/

/-- C1 (amended): on any bar processed while IN_POSITION (both SMAs
defined), if the stop-loss is enabled and the bar's low is at or under
the stop price, the position is closed as a stop-loss trade whose stored
exit price is the stop price rounded to two decimals (never the bar's
low, and regardless of whether the bar also crosses below the SMA); a
SIGNAL trade can only be produced when the stop-loss condition does not
hold (and then its stored exit price is the rounded close). -/
theorem btStep_stop_loss_priority (s : ℚ) (st : BTState) (p c : Bar) (sp sc : ℚ)
    (hp : p.sma = some sp) (hc : c.sma = some sc) (hin : st.inPos = true) :
    (c.low ≤ st.stopLossPrice →
      btStep true s st p c =
        { st with
          inPos := false
          stopLossExits := st.stopLossExits + 1
          trades := st.trades ++
            [mkTrade st.entryDate st.entryPrice c.dt st.stopLossPrice ExitReason.stop_loss] }) ∧
    (∀ (u : Bool) (tr : Trade),
      (btStep u s st p c).trades = st.trades ++ [tr] →
      tr.exit_reason = ExitReason.signal →
      (u = true → st.stopLossPrice < c.low) ∧ crossed_below p c = true ∧
        tr.exit_price = round2 c.close) := by
  have h0 : (c.sma.isNone || p.sma.isNone) = false := by rw [hc, hp]; rfl
  have h1 : (!st.inPos && crossed_above p c) = false := by rw [hin]; rfl
  constructor
  · intro hlow
    unfold btStep
    rw [h0, if_neg (by simp), h1, if_neg (by simp), if_pos hin,
      if_pos (show (true && decide (c.low ≤ st.stopLossPrice)) = true by simp [hlow])]
  · intro u tr htr hsig
    unfold btStep at htr
    rw [h0, if_neg (by simp), h1, if_neg (by simp), if_pos hin] at htr
    by_cases h3 : (u && decide (c.low ≤ st.stopLossPrice)) = true
    · rw [if_pos h3] at htr
      have htr' : mkTrade st.entryDate st.entryPrice c.dt st.stopLossPrice
          ExitReason.stop_loss = tr := by
        have := List.append_cancel_left htr
        simpa using this
      rw [← htr'] at hsig
      simp [mkTrade] at hsig
    · rw [if_neg h3] at htr
      by_cases h4 : crossed_below p c = true
      · rw [if_pos h4] at htr
        have htr' : mkTrade st.entryDate st.entryPrice c.dt c.close
            ExitReason.signal = tr := by
          have := List.append_cancel_left htr
          simpa using this
        refine ⟨?_, h4, ?_⟩
        · intro hu
          rw [hu] at h3
          simp at h3
          exact h3
        · rw [← htr']
          rfl
      · rw [if_neg h4] at htr
        have := congrArg List.length htr
        simp at this

/-- Concrete open-position state matching an entry at close 10.02 on bar
19 of `barsStop` (stop price 10.02 * 0.95 = 9.519). -/
def stStop : BTState :=
  { inPos := true
    entryPrice := 10.02
    entryDate := 19
    stopLossPrice := 9.519
    trades := []
    stopLossExits := 0
    signalExits := 0 }

/-- C1 witness: the stop-loss branch of `btStep_stop_loss_priority`
instantiated at bar 20 of `barsStop`, whose low 9 is under the stop price
9.519 while the bar also crosses below the SMA. -/
theorem btStep_stop_loss_priority_witness :
    btStep true STOP_LOSS_PCT stStop (mkStopBar 19) (mkStopBar 20) =
      { stStop with
        inPos := false
        stopLossExits := 1
        trades := [mkTrade 19 10.02 20 9.519 ExitReason.stop_loss] } :=
  (btStep_stop_loss_priority STOP_LOSS_PCT stStop (mkStopBar 19) (mkStopBar 20) 10 (19/2)
    (by decide) (by decide) rfl).1 (by decide)

/-- C1 counterexample to the claim as stated: in the `barsStop` run the
bar-20 stop-loss fires (even though that bar also crosses below the SMA),
but the Trade's stored `exit_price` is 9.52, the stop price rounded to
two decimals, not the stop price 10.02 * (1 - 0.05) = 9.519 itself. -/
theorem backtest_stop_exit_price_cex :
    (backtest_strategy tkT barsStop).map
        (fun r => r.trades.map fun tr => (tr.exit_price, tr.exit_reason)) =
      some [((9.52 : ℚ), ExitReason.stop_loss)] ∧
    crossed_below (mkStopBar 19) (mkStopBar 20) = true ∧
    (barsStop.getD 19 dummyBar).close = 10.02 ∧
    (9.52 : ℚ) ≠ 10.02 * (1 - STOP_LOSS_PCT) := by
  exact ⟨by decide, by decide, by decide, by decide⟩

/-! ## C2: forced end-of-data closure -/

/-- For a nonempty trade list the statistics block keeps the list and
reports its length. -/
lemma mkStats_of_ne_nil (tk : String) (trades : List Trade) (a b : ℕ) (h : trades ≠ []) :
    (mkStats tk trades a b).trades = trades ∧
    (mkStats tk trades a b).total_trades = trades.length := by
  unfold mkStats
  rw [if_neg (by simpa using h)]
  exact ⟨rfl, rfl⟩

/-- C2 (amended): whenever the loop finishes still IN_POSITION on at
least 21 bars, the run succeeds and its ledger is the loop's trades plus
one final forced trade whose `exit_reason` is END_OF_DATA, whose
`exit_date` is the last bar's timestamp and whose stored `exit_price` is
the last bar's close rounded to two decimals; the reported trade count
equals the ledger length (no dangling open position). -/
theorem backtest_end_of_data_closure (u : Bool) (s : ℚ) (tk : String) (bars : List Bar)
    (h21 : 21 ≤ bars.length) (hpos : (btRunAll u s bars).inPos = true) :
    ∃ r, backtestWith u s tk bars = some r ∧
      r.trades = (btRunAll u s bars).trades ++
        [mkTrade (btRunAll u s bars).entryDate (btRunAll u s bars).entryPrice
          (bars.getLastD dummyBar).dt (bars.getLastD dummyBar).close ExitReason.end_of_data] ∧
      r.total_trades = r.trades.length ∧
      ∃ tr, r.trades.getLast? = some tr ∧
        tr.exit_reason = ExitReason.end_of_data ∧
        tr.exit_date = (bars.getLastD dummyBar).dt ∧
        tr.exit_price = round2 (bars.getLastD dummyBar).close := by
  have hne : ¬ bars.length < 21 := by omega
  unfold backtestWith
  rw [if_neg hne]
  simp only [hpos, if_true]
  set tr0 := mkTrade (btRunAll u s bars).entryDate (btRunAll u s bars).entryPrice
    (bars.getLastD dummyBar).dt (bars.getLastD dummyBar).close ExitReason.end_of_data with htr0
  have hne2 : (btRunAll u s bars).trades ++ [tr0] ≠ [] := by simp
  obtain ⟨ht, hn⟩ := mkStats_of_ne_nil tk ((btRunAll u s bars).trades ++ [tr0])
    (btRunAll u s bars).stopLossExits (btRunAll u s bars).signalExits hne2
  refine ⟨_, rfl, ?_, ?_, ⟨tr0, ?_, rfl, rfl, rfl⟩⟩
  · exact ht
  · rw [ht, hn]
  · rw [ht]
    exact List.getLast?_concat _

/-- C2 witness: the closure theorem instantiated on the `barsEod` run,
which is still in position after the last bar. -/
theorem backtest_end_of_data_closure_witness :
    ∃ r, backtestWith true STOP_LOSS_PCT tkT barsEod = some r ∧
      r.trades = (btRunAll true STOP_LOSS_PCT barsEod).trades ++
        [mkTrade (btRunAll true STOP_LOSS_PCT barsEod).entryDate
          (btRunAll true STOP_LOSS_PCT barsEod).entryPrice
          (barsEod.getLastD dummyBar).dt (barsEod.getLastD dummyBar).close
          ExitReason.end_of_data] ∧
      r.total_trades = r.trades.length ∧
      ∃ tr, r.trades.getLast? = some tr ∧
        tr.exit_reason = ExitReason.end_of_data ∧
        tr.exit_date = (barsEod.getLastD dummyBar).dt ∧
        tr.exit_price = round2 (barsEod.getLastD dummyBar).close :=
  backtest_end_of_data_closure true STOP_LOSS_PCT tkT barsEod (by decide) (by decide)

/-- C2 counterexample to the claim as stated: in the `barsEod` run the
position is force-closed after the last bar, whose close is 10.001, but
the final Trade's stored `exit_price` is the rounded 10.0, not the last
bar's close. -/
theorem backtest_eod_exit_price_cex :
    (backtest_strategy tkT barsEod).map
        (fun r => r.trades.map fun tr => (tr.exit_price, tr.exit_date, tr.exit_reason)) =
      some [((10 : ℚ), 20, ExitReason.end_of_data)] ∧
    (barsEod.getLastD dummyBar).close = 10.001 ∧
    (10 : ℚ) ≠ 10.001 :=
  ⟨by decide, by decide, by decide⟩

/-! ## C3: at most one open position; trade date ordering -/

/-- Date sanity of one stored trade: the exit never predates the entry,
and is strictly later unless the trade is the forced end-of-data close. -/
def TradeDatesOK (tr : Trade) : Prop :=
  tr.entry_date ≤ tr.exit_date ∧
    (tr.exit_reason ≠ ExitReason.end_of_data → tr.entry_date < tr.exit_date)

/-- Timestamps strictly increase along a bar list (adjacent bars). -/
instance : IsTrans Bar (fun a b => a.dt < b.dt) :=
  ⟨fun _ _ _ h1 h2 => Nat.lt_trans h1 h2⟩

/-- Loop invariant: with strictly ascending timestamps, every trade the
loop has stored satisfies `TradeDatesOK`, and an open position was
entered no later than the last bar seen so far. -/
lemma btRun_dates (u : Bool) (s : ℚ) (bars : List Bar) :
    ∀ (prev : Bar) (st : BTState),
      List.Pairwise (fun a b : Bar => a.dt < b.dt) (prev :: bars) →
      (∀ tr ∈ st.trades, TradeDatesOK tr) →
      (st.inPos = true → (∀ b ∈ bars, st.entryDate < b.dt) ∧ st.entryDate ≤ prev.dt) →
      (∀ tr ∈ (btRun u s prev bars st).trades, TradeDatesOK tr) ∧
        ((btRun u s prev bars st).inPos = true →
          (btRun u s prev bars st).entryDate ≤ ((prev :: bars).getLastD dummyBar).dt) := by
  induction bars with
  | nil =>
    intro prev st hpw htr hpos
    refine ⟨htr, fun h => ?_⟩
    simpa using (hpos h).2
  | cons c rest ih =>
    intro prev st hpw htr hpos
    have hpw' : List.Pairwise (fun a b : Bar => a.dt < b.dt) (c :: rest) :=
      (List.pairwise_cons.mp hpw).2
    have hcR : ∀ b ∈ rest, c.dt < b.dt := (List.pairwise_cons.mp hpw').1
    have hlast : ((prev :: c :: rest).getLastD dummyBar) = ((c :: rest).getLastD dummyBar) := by
      simp [List.getLastD_cons]
    have hunfold : btRun u s prev (c :: rest) st = btRun u s c rest (btStep u s st prev c) := rfl
    rw [hunfold, hlast]
    rcases btStep_spec u s st prev c with heq | ⟨hflat, heq⟩ | ⟨hopen, heq⟩ | ⟨hopen, heq⟩
    · rw [heq]
      refine ih c st hpw' htr (fun h => ⟨fun b hb => (hpos h).1 b (List.mem_cons_of_mem c hb), ?_⟩)
      exact Nat.le_of_lt ((hpos h).1 c (List.mem_cons_self c rest))
    · rw [heq]
      exact ih c _ hpw' htr (fun _ => ⟨hcR, Nat.le_refl c.dt⟩)
    · rw [heq]
      refine ih c _ hpw' ?_ (fun h => by simp at h)
      intro tr htri
      rcases List.mem_append.mp htri with h | h
      · exact htr tr h
      · have hlt : st.entryDate < c.dt := (hpos hopen).1 c (List.mem_cons_self c rest)
        rcases List.mem_singleton.mp h with rfl
        exact ⟨Nat.le_of_lt hlt, fun _ => hlt⟩
    · rw [heq]
      refine ih c _ hpw' ?_ (fun h => by simp at h)
      intro tr htri
      rcases List.mem_append.mp htri with h | h
      · exact htr tr h
      · have hlt : st.entryDate < c.dt := (hpos hopen).1 c (List.mem_cons_self c rest)
        rcases List.mem_singleton.mp h with rfl
        exact ⟨Nat.le_of_lt hlt, fun _ => hlt⟩

/-- Every trade of a returned result is an element of the trade list the
statistics block was given. -/
lemma mkStats_trades_subset (tk : String) (trades : List Trade) (a b : ℕ) :
    ∀ tr ∈ (mkStats tk trades a b).trades, tr ∈ trades := by
  unfold mkStats
  by_cases h : trades.isEmpty
  · rw [if_pos h]
    intro tr htr
    simp at htr
  · rw [if_neg h]
    intro tr htr
    exact htr

/-- With strictly ascending timestamps every trade of a successful run
(forced end-of-data close included) satisfies `TradeDatesOK`. -/
lemma backtestWith_trades_datesOK (u : Bool) (s : ℚ) (tk : String) (bars : List Bar)
    (hasc : List.Chain' (fun a b : Bar => a.dt < b.dt) bars) :
    ∀ r, backtestWith u s tk bars = some r → ∀ tr ∈ r.trades, TradeDatesOK tr := by
  intro r hr
  cases bars with
  | nil => simp [backtestWith] at hr
  | cons b0 rest =>
    by_cases hlen : (b0 :: rest).length < 21
    · rw [backtestWith, if_pos hlen] at hr
      cases hr
    · have hpw : List.Pairwise (fun a b : Bar => a.dt < b.dt) (b0 :: rest) :=
        List.chain'_iff_pairwise.mp hasc
      have hrun := btRun_dates u s rest b0 initState hpw
        (by intro tr htr; simp [initState] at htr)
        (by intro h; simp [initState] at h)
      have hr' : r = mkStats tk
          (if (btRun u s b0 rest initState).inPos = true then
            (btRun u s b0 rest initState).trades ++
              [mkTrade (btRun u s b0 rest initState).entryDate
                (btRun u s b0 rest initState).entryPrice
                ((b0 :: rest).getLastD dummyBar).dt
                ((b0 :: rest).getLastD dummyBar).close ExitReason.end_of_data]
          else (btRun u s b0 rest initState).trades)
          (btRun u s b0 rest initState).stopLossExits
          (btRun u s b0 rest initState).signalExits := by
        rw [backtestWith, if_neg hlen] at hr
        exact (Option.some.inj hr).symm
      intro tr htr
      rw [hr'] at htr
      have htr2 := mkStats_trades_subset tk _ _ _ tr htr
      by_cases hip : (btRun u s b0 rest initState).inPos = true
      · rw [if_pos hip] at htr2
        rcases List.mem_append.mp htr2 with h | h
        · exact hrun.1 tr h
        · rcases List.mem_singleton.mp h with rfl
          exact ⟨hrun.2 hip, fun hne => absurd rfl hne⟩
      · rw [if_neg hip] at htr2
        exact hrun.1 tr htr2

/-- Executable check that timestamps strictly increase along a bar list. -/
def strictAscBars : List Bar → Bool
  | [] => true
  | [_] => true
  | a :: b :: t => decide (a.dt < b.dt) && strictAscBars (b :: t)

/-- The executable check implies the `Chain'` form of strict ascent. -/
lemma chain'_of_strictAsc : ∀ bs : List Bar, strictAscBars bs = true →
    List.Chain' (fun a b : Bar => a.dt < b.dt) bs := by
  intro bs
  induction bs with
  | nil => exact fun _ => List.chain'_nil
  | cons a t ih =>
    cases t with
    | nil => exact fun _ => List.chain'_singleton a
    | cons b t2 =>
      intro h
      rw [strictAscBars, Bool.and_eq_true] at h
      exact List.chain'_cons.mpr ⟨of_decide_eq_true h.1, ih h.2⟩

/-- C3 (amended): while a position stays open nothing about it changes
and no trade is appended (so there is never a second simultaneous
position: entries happen only from the flat state by construction of the
step); and with strictly ascending timestamps every stored trade has
`exit_date ≥ entry_date`, strictly greater except for the forced
END_OF_DATA close (which coincides exactly when the entry happened on the
final bar). -/
theorem backtest_at_most_one_position (u : Bool) (s : ℚ) (st : BTState) (p c : Bar)
    (tk : String) (bars : List Bar)
    (hopen : st.inPos = true) (hstay : (btStep u s st p c).inPos = true)
    (hasc : List.Chain' (fun a b : Bar => a.dt < b.dt) bars) :
    ((btStep u s st p c).entryPrice = st.entryPrice ∧
      (btStep u s st p c).entryDate = st.entryDate ∧
      (btStep u s st p c).trades = st.trades) ∧
    (∀ r, backtestWith u s tk bars = some r → ∀ tr ∈ r.trades,
      tr.entry_date ≤ tr.exit_date ∧
        (tr.exit_reason ≠ ExitReason.end_of_data → tr.entry_date < tr.exit_date)) := by
  constructor
  · rcases btStep_spec u s st p c with heq | ⟨hflat, heq⟩ | ⟨_, heq⟩ | ⟨_, heq⟩
    · rw [heq]
      exact ⟨rfl, rfl, rfl⟩
    · rw [hopen] at hflat
      cases hflat
    · rw [heq] at hstay
      simp at hstay
    · rw [heq] at hstay
      simp at hstay
  · exact fun r hr tr htr => backtestWith_trades_datesOK u s tk bars hasc r hr tr htr

/-- Concrete open-position state staying open across bar 19 of
`barsStop` (low 10 is above the stop price 9.519 and there is no
downward crossover). -/
def stHold : BTState :=
  { inPos := true
    entryPrice := 10.02
    entryDate := 5
    stopLossPrice := 9.519
    trades := []
    stopLossExits := 0
    signalExits := 0 }

/-- C3 witness: the theorem instantiated on a bar that keeps the
position open and on the `barsStop` run. -/
theorem backtest_at_most_one_position_witness :
    ((btStep true STOP_LOSS_PCT stHold (mkStopBar 18) (mkStopBar 19)).entryPrice =
        stHold.entryPrice ∧
      (btStep true STOP_LOSS_PCT stHold (mkStopBar 18) (mkStopBar 19)).entryDate =
        stHold.entryDate ∧
      (btStep true STOP_LOSS_PCT stHold (mkStopBar 18) (mkStopBar 19)).trades =
        stHold.trades) ∧
    (∀ r, backtestWith true STOP_LOSS_PCT tkT barsStop = some r → ∀ tr ∈ r.trades,
      tr.entry_date ≤ tr.exit_date ∧
        (tr.exit_reason ≠ ExitReason.end_of_data → tr.entry_date < tr.exit_date)) :=
  backtest_at_most_one_position true STOP_LOSS_PCT stHold (mkStopBar 18) (mkStopBar 19)
    tkT barsStop rfl (by decide) (chain'_of_strictAsc _ (by decide))

/-- C3 counterexample to the claim as stated: `lastEntryBars 12` has
strictly ascending timestamps, yet its single trade (entered on the last
bar and force-closed at end of data) has `exit_date = entry_date = 20`,
not strictly greater. -/
theorem backtest_entry_last_bar_dates_cex :
    strictAscBars (lastEntryBars 12) = true ∧
    (backtest_strategy tkT (lastEntryBars 12)).map
        (fun r => r.trades.map fun tr => (tr.entry_date, tr.exit_date, tr.exit_reason)) =
      some [(20, 20, ExitReason.end_of_data)] ∧
    ¬ (20 : ℕ) < 20 :=
  ⟨by decide, by decide, by decide⟩

/-! ## C10: the entry bar is never evaluated for exit -/

/-- C10 (amended): a bar processed in the FLAT state never appends a
trade — in particular the entry bar itself is not exit-checked even when
its low is already at or under the would-be stop price `close * (1 - s)`
(the position simply opens at that bar's close and date); and, with
strictly ascending timestamps, every trade closed by an exit condition
(reason ≠ END_OF_DATA) exits strictly after its entry.  Only the forced
END_OF_DATA close can coincide with its entry bar. -/
theorem backtest_entry_bar_no_exit (u : Bool) (s : ℚ) (st : BTState) (p c : Bar)
    (tk : String) (bars : List Bar)
    (hflat : st.inPos = false) (_hlow : c.low ≤ c.close * (1 - s))
    (hasc : List.Chain' (fun a b : Bar => a.dt < b.dt) bars) :
    (btStep u s st p c).trades = st.trades ∧
    ((btStep u s st p c).inPos = true →
      (btStep u s st p c).entryDate = c.dt ∧ (btStep u s st p c).entryPrice = c.close) ∧
    (∀ r, backtestWith u s tk bars = some r → ∀ tr ∈ r.trades,
      tr.exit_reason ≠ ExitReason.end_of_data → tr.entry_date < tr.exit_date) := by
  have hsp := btStep_spec u s st p c
  refine ⟨?_, ?_, fun r hr tr htr hne =>
    (backtestWith_trades_datesOK u s tk bars hasc r hr tr htr).2 hne⟩
  · rcases hsp with heq | ⟨_, heq⟩ | ⟨hopen, _⟩ | ⟨hopen, _⟩
    · rw [heq]
    · rw [heq]
    · rw [hflat] at hopen
      cases hopen
    · rw [hflat] at hopen
      cases hopen
  · intro hip
    rcases hsp with heq | ⟨_, heq⟩ | ⟨hopen, _⟩ | ⟨hopen, _⟩
    · rw [heq, hflat] at hip
      cases hip
    · rw [heq]
      exact ⟨rfl, rfl⟩
    · rw [hflat] at hopen
      cases hopen
    · rw [hflat] at hopen
      cases hopen

/-- Entry bar whose own low 9 is already under the would-be stop price
12 * 0.95 = 11.4 at the moment of the upward crossover. -/
def wEntryBar : Bar := ⟨1, 12, 9, some 11⟩

/-- The bar preceding `wEntryBar` (close 10 at or under its SMA 10.5). -/
def wPrevBar : Bar := ⟨0, 10, 10, some (21/2)⟩

/-- C10 witness: the theorem instantiated at the flat initial state, an
entry bar whose low is under the would-be stop price, and the `barsStop`
run. -/
theorem backtest_entry_bar_no_exit_witness :
    (btStep true STOP_LOSS_PCT initState wPrevBar wEntryBar).trades = initState.trades ∧
    ((btStep true STOP_LOSS_PCT initState wPrevBar wEntryBar).inPos = true →
      (btStep true STOP_LOSS_PCT initState wPrevBar wEntryBar).entryDate = wEntryBar.dt ∧
      (btStep true STOP_LOSS_PCT initState wPrevBar wEntryBar).entryPrice = wEntryBar.close) ∧
    (∀ r, backtestWith true STOP_LOSS_PCT tkT barsStop = some r → ∀ tr ∈ r.trades,
      tr.exit_reason ≠ ExitReason.end_of_data → tr.entry_date < tr.exit_date) :=
  backtest_entry_bar_no_exit true STOP_LOSS_PCT initState wPrevBar wEntryBar tkT barsStop
    rfl (by decide) (chain'_of_strictAsc _ (by decide))

/-- C10 counterexample to the claim as stated: in the `lastEntryBars 13`
run (strictly ascending timestamps, so equal timestamps mean the same
bar) the position entered on the final bar is force-closed on that very
bar, so its exit bar index equals — is not strictly greater than — its
entry bar index. -/
theorem backtest_entry_bar_index_cex :
    strictAscBars (lastEntryBars 13) = true ∧
    (backtest_strategy tkT (lastEntryBars 13)).map
        (fun r => r.trades.map fun tr => (tr.entry_date, tr.exit_date)) =
      some [(20, 20)] ∧
    ((lastEntryBars 13).getD 20 dummyBar).dt = 20 ∧
    ¬ (20 : ℕ) < 20 :=
  ⟨by decide, by decide, by decide, by decide⟩

/-! ## C4: signal precedence and position attachment -/

/-- C4: the classifier follows the exact precedence STRONG_BUY (upward
crossover, even when the plain above-SMA condition also holds) → BUY
(close above SMA) → SELL (downward crossover) → HOLD, and (for a nonzero
close, where sizing cannot raise) a position recommendation is attached
precisely for STRONG_BUY and BUY. -/
theorem generate_signal_precedence (p c : Bar) (tk : String) :
    (crossed_above p c = true →
      (generate_current_signal p c tk).signal = SignalKind.strong_buy) ∧
    (crossed_above p c = false → nanGt c.close c.sma = true →
      (generate_current_signal p c tk).signal = SignalKind.buy) ∧
    (crossed_above p c = false → nanGt c.close c.sma = false → crossed_below p c = true →
      (generate_current_signal p c tk).signal = SignalKind.sell) ∧
    (crossed_above p c = false → nanGt c.close c.sma = false → crossed_below p c = false →
      (generate_current_signal p c tk).signal = SignalKind.hold) ∧
    (c.close ≠ 0 →
      ((generate_current_signal p c tk).position.isSome ↔
        ((generate_current_signal p c tk).signal = SignalKind.strong_buy ∨
          (generate_current_signal p c tk).signal = SignalKind.buy))) := by
  refine ⟨?_, ?_, ?_, ?_, ?_⟩
  · intro h
    simp [generate_current_signal, h]
  · intro h1 h2
    simp [generate_current_signal, h1, h2]
  · intro h1 h2 h3
    simp [generate_current_signal, h1, h2, h3]
  · intro h1 h2 h3
    simp [generate_current_signal, h1, h2, h3]
  · intro hc0
    by_cases hca : crossed_above p c = true
    · simp [generate_current_signal, calculate_position_size, hca, hc0]
    · by_cases hgt : nanGt c.close c.sma = true
      · simp [generate_current_signal, calculate_position_size, hca, hgt, hc0]
      · by_cases hcb : crossed_below p c = true
        · simp [generate_current_signal, hca, hgt, hcb]
        · simp [generate_current_signal, hca, hgt, hcb]

/-- Previous bar of the plain-BUY witness (close 11 above its SMA 10, so
no upward crossover on the next bar). -/
def buyPrev : Bar := ⟨0, 11, 11, some 10⟩

/-- Current bar of the plain-BUY witness (close 12 above its SMA 11). -/
def buyCur : Bar := ⟨1, 12, 12, some 11⟩

/-- Previous bar of the SELL witness (close 11 at or above its SMA 10). -/
def sellPrev : Bar := ⟨0, 11, 11, some 10⟩

/-- Current bar of the SELL witness (close 9 below its SMA 10). -/
def sellCur : Bar := ⟨1, 9, 9, some 10⟩

/-- Previous bar of the HOLD witness (close 9 below its SMA 10). -/
def holdPrev : Bar := ⟨0, 9, 9, some 10⟩

/-- Current bar of the HOLD witness (close 9 below its SMA 10). -/
def holdCur : Bar := ⟨1, 9, 9, some 10⟩

/-- C4 witness: all four precedence branches and the position-attachment
equivalence instantiated at concrete two-bar inputs. -/
theorem generate_signal_precedence_witness :
    (generate_current_signal wPrevBar wEntryBar tkT).signal = SignalKind.strong_buy ∧
    (generate_current_signal buyPrev buyCur tkT).signal = SignalKind.buy ∧
    (generate_current_signal sellPrev sellCur tkT).signal = SignalKind.sell ∧
    (generate_current_signal holdPrev holdCur tkT).signal = SignalKind.hold ∧
    ((generate_current_signal wPrevBar wEntryBar tkT).position.isSome ↔
      ((generate_current_signal wPrevBar wEntryBar tkT).signal = SignalKind.strong_buy ∨
        (generate_current_signal wPrevBar wEntryBar tkT).signal = SignalKind.buy)) :=
  ⟨(generate_signal_precedence wPrevBar wEntryBar tkT).1 (by decide),
    (generate_signal_precedence buyPrev buyCur tkT).2.1 (by decide) (by decide),
    (generate_signal_precedence sellPrev sellCur tkT).2.2.1 (by decide) (by decide) (by decide),
    (generate_signal_precedence holdPrev holdCur tkT).2.2.2.1 (by decide) (by decide) (by decide),
    (generate_signal_precedence wPrevBar wEntryBar tkT).2.2.2.2 (by decide)⟩

/-! ## C7: undefined SMA values at the classifier -/

/-- Previous bar with a defined SMA, used with a NaN-SMA current bar. -/
def nanPrev : Bar := ⟨0, 10, 10, some 10⟩

/-- Current bar whose SMA is still NaN. -/
def nanCur : Bar := ⟨1, 12, 12, none⟩

/-- Previous bar whose SMA is still NaN. -/
def nanPrev2 : Bar := ⟨0, 10, 10, none⟩

/-- C7 counterexample to the claim as stated: with the current bar's SMA
undefined (NaN) the classifier does not fail at all — it returns a
complete Signal dict, with every NaN comparison false, hence HOLD, no
position and NaN distance. -/
theorem signal_undefined_sma_cex :
    generate_current_signal nanPrev nanCur tkT =
      { ticker := tkT
        signal := SignalKind.hold
        price := 12
        sma := none
        distance_pct := none
        crossed_above := false
        crossed_below := false
        position := none } := by decide

/-- C7 (amended): the classifier is total on undefined SMA values: if
the current SMA is NaN every comparison is false, so the signal is HOLD
with no position and NaN distance; if only the previous SMA is NaN no
crossover can fire, so the signal is never STRONG_BUY or SELL.  The
pipeline avoids these inputs by skipping assets with too little history
before calling the classifier, not through an error. -/
theorem signal_undefined_sma_total (p c : Bar) (tk : String) :
    (c.sma = none →
      (generate_current_signal p c tk).signal = SignalKind.hold ∧
      (generate_current_signal p c tk).position = none ∧
      (generate_current_signal p c tk).distance_pct = none) ∧
    (p.sma = none →
      (generate_current_signal p c tk).signal ≠ SignalKind.strong_buy ∧
      (generate_current_signal p c tk).signal ≠ SignalKind.sell) := by
  constructor
  · intro h
    simp [generate_current_signal, crossed_above, crossed_below, nanGt, nanLt, h]
  · intro h
    by_cases hgt : nanGt c.close c.sma = true <;>
      simp [generate_current_signal, crossed_above, crossed_below, nanLe, nanGe, h, hgt]

/-- C7 witness: both branches of the amended theorem instantiated at
concrete bars with an undefined SMA. -/
theorem signal_undefined_sma_total_witness :
    ((generate_current_signal nanPrev nanCur tkT).signal = SignalKind.hold ∧
      (generate_current_signal nanPrev nanCur tkT).position = none ∧
      (generate_current_signal nanPrev nanCur tkT).distance_pct = none) ∧
    ((generate_current_signal nanPrev2 buyCur tkT).signal ≠ SignalKind.strong_buy ∧
      (generate_current_signal nanPrev2 buyCur tkT).signal ≠ SignalKind.sell) :=
  ⟨(signal_undefined_sma_total nanPrev nanCur tkT).1 rfl,
    (signal_undefined_sma_total nanPrev2 buyCur tkT).2 rfl⟩

/-! ## C8: non-positive prices in position sizing -/

/-- The clamped position budget is nonnegative for a nonnegative
portfolio value. -/
lemma position_dollars_nonneg (strength ps : ℚ) (hps : 0 ≤ ps) :
    0 ≤ position_dollars strength ps := by
  have h1 : (0:ℚ) ≤ ps * MAX_POSITION_PCT := mul_nonneg hps (by norm_num [MAX_POSITION_PCT])
  unfold position_dollars position_multiplier
  split_ifs <;> exact le_min (mul_nonneg h1 (by norm_num)) h1

/-- C8 (amended): for a nonnegative portfolio value, `price = 0` makes
the sizing fail with an uncaught division-by-zero (not a distinguished
InvalidPrice error); for `price > 0` it returns
`shares = floor(position_dollars / price)` with the stored dollar, stop
and percentage fields rounded to two decimals; and for `price < 0` it
does not fail at all but silently returns a share count truncated toward
zero (the ceiling of the negative quotient). -/
theorem position_size_price_cases (price strength ps : ℚ) (hps : 0 ≤ ps) :
    (price = 0 → calculate_position_size price strength ps = none) ∧
    (0 < price → calculate_position_size price strength ps =
      some
        { shares := ⌊position_dollars strength ps / price⌋
          dollars := round2 ((⌊position_dollars strength ps / price⌋ : ℚ) * price)
          position_pct :=
            round2 ((⌊position_dollars strength ps / price⌋ : ℚ) * price / ps * 100)
          risk_dollars := round2 (ps * RISK_PER_TRADE_PCT)
          stop_loss_price := round2 (price * (1 - STOP_LOSS_PCT))
          stop_loss_pct := STOP_LOSS_PCT * 100 }) ∧
    (price < 0 → ∃ r, calculate_position_size price strength ps = some r ∧
      r.shares = ⌈position_dollars strength ps / price⌉) := by
  refine ⟨?_, ?_, ?_⟩
  · intro h
    simp [calculate_position_size, h]
  · intro h
    have hne : price ≠ 0 := ne_of_gt h
    have hq : 0 ≤ position_dollars strength ps / price :=
      div_nonneg (position_dollars_nonneg strength ps hps) (le_of_lt h)
    simp [calculate_position_size, hne, truncInt, hq]
  · intro h
    have hne : price ≠ 0 := ne_of_lt h
    unfold calculate_position_size
    rw [if_neg hne]
    refine ⟨_, rfl, ?_⟩
    show truncInt (position_dollars strength ps / price) = ⌈position_dollars strength ps / price⌉
    unfold truncInt
    by_cases hq : 0 ≤ position_dollars strength ps / price
    · rw [if_pos hq]
      have hq2 : position_dollars strength ps / price ≤ 0 :=
        div_nonpos_iff.mpr (Or.inl ⟨position_dollars_nonneg strength ps hps, le_of_lt h⟩)
      have h0 : position_dollars strength ps / price = 0 := le_antisymm hq2 hq
      rw [h0]
      simp
    · rw [if_neg hq]

/-- C8 witness: the zero, positive and negative price branches
instantiated at concrete inputs. -/
theorem position_size_price_cases_witness :
    calculate_position_size 0 3 10000 = none ∧
    calculate_position_size 7 3 10000 =
      some
        { shares := ⌊position_dollars 3 10000 / 7⌋
          dollars := round2 ((⌊position_dollars 3 10000 / 7⌋ : ℚ) * 7)
          position_pct := round2 ((⌊position_dollars 3 10000 / 7⌋ : ℚ) * 7 / 10000 * 100)
          risk_dollars := round2 (10000 * RISK_PER_TRADE_PCT)
          stop_loss_price := round2 (7 * (1 - STOP_LOSS_PCT))
          stop_loss_pct := STOP_LOSS_PCT * 100 } ∧
    (∃ r, calculate_position_size (-3) 1 10000 = some r ∧
      r.shares = ⌈position_dollars 1 10000 / (-3)⌉) :=
  ⟨(position_size_price_cases 0 3 10000 (by decide)).1 rfl,
    (position_size_price_cases 7 3 10000 (by decide)).2.1 (by decide),
    (position_size_price_cases (-3) 1 10000 (by decide)).2.2 (by decide)⟩

/-- C8 counterexample to the claim as stated: at the negative price -3
the sizing does not fail with any error — it silently divides and
returns -166 shares (truncated toward zero, where a floor would give
-167); at price 0 it fails, but by raising a bare ZeroDivisionError; and
even for a positive price 10.02 the stored stop-loss price is the
rounded 9.52, not `price * (1 - stop_loss_pct) = 9.519`. -/
theorem position_size_nonpositive_price_cex :
    calculate_position_size (-3) 1 10000 =
      some
        { shares := -166
          dollars := 498
          position_pct := 4.98
          risk_dollars := 200
          stop_loss_price := -2.85
          stop_loss_pct := 5 } ∧
    (⌊(position_dollars 1 10000 / (-3) : ℚ)⌋ = -167) ∧
    calculate_position_size 0 1 10000 = none ∧
    (calculate_position_size 10.02 1 10000).map (·.stop_loss_price) = some 9.52 ∧
    (9.52 : ℚ) ≠ 10.02 * (1 - STOP_LOSS_PCT) :=
  ⟨by decide, by decide, by decide, by decide, by decide⟩

/-! ## C5: the profit factor of the portfolio summary -/

/-- A hand-written per-asset result with one winning trade (gross profit
1) and one losing trade (gross loss -3), used as aggregator input. -/
def resA : BacktestResult :=
  { ticker := tkA
    total_trades := 2
    winning_trades := 1
    losing_trades := 1
    win_rate := 50
    gross_profit := 1
    gross_loss := -3
    total_profit := -2
    avg_profit := -1
    avg_profit_pct := -10
    stop_loss_exits := 1
    signal_exits := 1
    trades := [] }

/-- C5 (amended): for a nonempty valid-result list the summary's profit
factor is `|gross_profit / gross_loss|` rounded to two decimals whenever
the summed gross loss is nonzero, and it is the `inf` sentinel whenever
the summed gross loss is zero — including when the gross profit is also
zero (for example when every result has zero trades), not only when the
gross profit is positive. -/
theorem portfolio_profit_factor_cases (rs : List (Option BacktestResult))
    (v0 : BacktestResult) (vrest : List BacktestResult)
    (hv : rs.filterMap id = v0 :: vrest) :
    ((((v0 :: vrest).map (·.gross_loss)).sum ≠ 0 →
      (calculate_portfolio_summary rs).profit_factor =
        PyFloat.val (round2 |(((v0 :: vrest).map (·.gross_profit)).sum) /
          (((v0 :: vrest).map (·.gross_loss)).sum)|)) ∧
    ((((v0 :: vrest).map (·.gross_loss)).sum = 0 →
      (calculate_portfolio_summary rs).profit_factor = PyFloat.inf))) := by
  constructor <;> intro h <;>
    simp only [calculate_portfolio_summary, hv] <;>
    [rw [if_pos h]; rw [if_neg (not_not_intro h)]] <;> rfl

/-- C5 witness: both profit-factor branches instantiated — a mixed
result with gross loss -3, and a zero-trade result with gross loss 0. -/
theorem portfolio_profit_factor_cases_witness :
    (calculate_portfolio_summary [some resA]).profit_factor =
      PyFloat.val (round2 |(([resA].map (·.gross_profit)).sum) /
        (([resA].map (·.gross_loss)).sum)|) ∧
    (calculate_portfolio_summary [some (mkStats tkB [] 0 0)]).profit_factor = PyFloat.inf :=
  ⟨(portfolio_profit_factor_cases [some resA] resA [] rfl).1 (by decide),
    (portfolio_profit_factor_cases [some (mkStats tkB [] 0 0)] (mkStats tkB [] 0 0) []
      rfl).2 (by decide)⟩

/-- C5 counterexample to the claim as stated: with gross profit 1 and
gross loss -3 the stored profit factor is the rounded 0.33, not
`|1 / (-3)| = 1/3`; and a single zero-trade result (gross profit 0,
gross loss 0) already produces the `inf` sentinel, so the sentinel is not
taken only when the gross profit is positive. -/
theorem portfolio_profit_factor_cex :
    resA.gross_loss = -3 ∧
    (calculate_portfolio_summary [some resA]).profit_factor = PyFloat.val (33/100) ∧
    PyFloat.val (33/100) ≠ PyFloat.val |(1 : ℚ) / (-3)| ∧
    (mkStats tkB [] 0 0).gross_profit = 0 ∧
    (calculate_portfolio_summary [some (mkStats tkB [] 0 0)]).profit_factor = PyFloat.inf :=
  ⟨by decide, by decide, by decide, by decide, by decide⟩

/-! ## C6: empty aggregation input -/

/-- C6: when the input holds no non-null result the aggregator returns
the zeroed summary dict — zero stocks, zero trades, zero profits, profit
factor 0 and "N/A" best/worst performers — instead of raising. -/
theorem portfolio_empty_summary (rs : List (Option BacktestResult))
    (h : rs.filterMap id = []) :
    calculate_portfolio_summary rs = emptyPortfolioSummary ∧
    (calculate_portfolio_summary rs).total_stocks_analyzed = 0 ∧
    (calculate_portfolio_summary rs).profitable_stocks = 0 ∧
    (calculate_portfolio_summary rs).profit_factor = PyFloat.val 0 ∧
    (calculate_portfolio_summary rs).total_trades = 0 ∧
    (calculate_portfolio_summary rs).winning_trades = 0 ∧
    (calculate_portfolio_summary rs).losing_trades = 0 ∧
    (calculate_portfolio_summary rs).gross_profit = 0 ∧
    (calculate_portfolio_summary rs).gross_loss = 0 ∧
    (calculate_portfolio_summary rs).net_profit = 0 ∧
    (calculate_portfolio_summary rs).best_performer.ticker = notApplicable ∧
    (calculate_portfolio_summary rs).worst_performer.ticker = notApplicable := by
  have he : calculate_portfolio_summary rs = emptyPortfolioSummary := by
    unfold calculate_portfolio_summary
    rw [h]
  rw [he]
  exact ⟨rfl, rfl, rfl, rfl, rfl, rfl, rfl, rfl, rfl, rfl, rfl, rfl⟩

/-- C6 witness: the empty-summary theorem instantiated at a list of two
null results. -/
theorem portfolio_empty_summary_witness :
    calculate_portfolio_summary [none, none] = emptyPortfolioSummary ∧
    (calculate_portfolio_summary [none, none]).total_stocks_analyzed = 0 ∧
    (calculate_portfolio_summary [none, none]).profitable_stocks = 0 ∧
    (calculate_portfolio_summary [none, none]).profit_factor = PyFloat.val 0 ∧
    (calculate_portfolio_summary [none, none]).total_trades = 0 ∧
    (calculate_portfolio_summary [none, none]).winning_trades = 0 ∧
    (calculate_portfolio_summary [none, none]).losing_trades = 0 ∧
    (calculate_portfolio_summary [none, none]).gross_profit = 0 ∧
    (calculate_portfolio_summary [none, none]).gross_loss = 0 ∧
    (calculate_portfolio_summary [none, none]).net_profit = 0 ∧
    (calculate_portfolio_summary [none, none]).best_performer.ticker = notApplicable ∧
    (calculate_portfolio_summary [none, none]).worst_performer.ticker = notApplicable :=
  portfolio_empty_summary [none, none] rfl

/-! ## C9: rounding happens inside the simulator -/

/-- `round(0, 2) = 0`. -/
lemma round2_zero : round2 0 = 0 := by decide

/-- C9 (amended): the simulator itself stores rounded numbers — every
trade it appends carries the entry price, exit price, profit and profit
percentage rounded to two decimals (the profit being computed from the
unrounded prices first), and the per-asset statistics are two-decimal
roundings computed from the already-rounded per-trade profits. -/
theorem backtest_rounding_inside_simulator (u : Bool) (s : ℚ) (st : BTState) (p c : Bar)
    (tr : Trade) (h : (btStep u s st p c).trades = st.trades ++ [tr]) :
    (tr.entry_price = round2 st.entryPrice ∧ tr.entry_date = st.entryDate ∧
      tr.exit_date = c.dt ∧
      ((tr.exit_reason = ExitReason.stop_loss ∧ tr.exit_price = round2 st.stopLossPrice ∧
          tr.profit = round2 (st.stopLossPrice - st.entryPrice) ∧
          tr.profit_pct = round2 ((st.stopLossPrice - st.entryPrice) / st.entryPrice * 100)) ∨
        (tr.exit_reason = ExitReason.signal ∧ tr.exit_price = round2 c.close ∧
          tr.profit = round2 (c.close - st.entryPrice) ∧
          tr.profit_pct = round2 ((c.close - st.entryPrice) / st.entryPrice * 100)))) ∧
    (∀ (tk : String) (trl : List Trade) (a b : ℕ),
      (mkStats tk trl a b).gross_profit =
        round2 (((trl.filter (fun t => 0 < t.profit)).map (·.profit)).sum) ∧
      (mkStats tk trl a b).win_rate =
        round2 (((trl.filter (fun t => 0 < t.profit)).length : ℚ) / (trl.length : ℚ) * 100)) := by
  constructor
  · rcases btStep_spec u s st p c with heq | ⟨_, heq⟩ | ⟨_, heq⟩ | ⟨_, heq⟩
    · rw [heq] at h
      have := congrArg List.length h
      simp at this
    · rw [heq] at h
      have := congrArg List.length h
      simp at this
    · rw [heq] at h
      have h2 : mkTrade st.entryDate st.entryPrice c.dt st.stopLossPrice
          ExitReason.stop_loss = tr := by
        have := List.append_cancel_left h
        simpa using this
      subst h2
      exact ⟨rfl, rfl, rfl, Or.inl ⟨rfl, rfl, rfl, rfl⟩⟩
    · rw [heq] at h
      have h2 : mkTrade st.entryDate st.entryPrice c.dt c.close
          ExitReason.signal = tr := by
        have := List.append_cancel_left h
        simpa using this
      subst h2
      exact ⟨rfl, rfl, rfl, Or.inr ⟨rfl, rfl, rfl, rfl⟩⟩
  · intro tk trl a b
    cases trl with
    | nil => constructor <;> simp [mkStats, round2_zero]
    | cons t ts =>
      constructor <;>
        · unfold mkStats
          rw [if_neg (by simp)]

/-- C9 witness: the trade-field part instantiated at the concrete
stop-loss step of `barsStop` and the statistics part as stated. -/
theorem backtest_rounding_inside_simulator_witness :
    ((mkTrade 19 10.02 20 9.519 ExitReason.stop_loss).entry_price =
        round2 stStop.entryPrice ∧
      (mkTrade 19 10.02 20 9.519 ExitReason.stop_loss).entry_date = stStop.entryDate ∧
      (mkTrade 19 10.02 20 9.519 ExitReason.stop_loss).exit_date = (mkStopBar 20).dt ∧
      (((mkTrade 19 10.02 20 9.519 ExitReason.stop_loss).exit_reason = ExitReason.stop_loss ∧
          (mkTrade 19 10.02 20 9.519 ExitReason.stop_loss).exit_price =
            round2 stStop.stopLossPrice ∧
          (mkTrade 19 10.02 20 9.519 ExitReason.stop_loss).profit =
            round2 (stStop.stopLossPrice - stStop.entryPrice) ∧
          (mkTrade 19 10.02 20 9.519 ExitReason.stop_loss).profit_pct =
            round2 ((stStop.stopLossPrice - stStop.entryPrice) / stStop.entryPrice * 100)) ∨
        ((mkTrade 19 10.02 20 9.519 ExitReason.stop_loss).exit_reason = ExitReason.signal ∧
          (mkTrade 19 10.02 20 9.519 ExitReason.stop_loss).exit_price =
            round2 (mkStopBar 20).close ∧
          (mkTrade 19 10.02 20 9.519 ExitReason.stop_loss).profit =
            round2 ((mkStopBar 20).close - stStop.entryPrice) ∧
          (mkTrade 19 10.02 20 9.519 ExitReason.stop_loss).profit_pct =
            round2 (((mkStopBar 20).close - stStop.entryPrice) / stStop.entryPrice * 100)))) ∧
    (∀ (tk : String) (trl : List Trade) (a b : ℕ),
      (mkStats tk trl a b).gross_profit =
        round2 (((trl.filter (fun t => 0 < t.profit)).map (·.profit)).sum) ∧
      (mkStats tk trl a b).win_rate =
        round2 (((trl.filter (fun t => 0 < t.profit)).length : ℚ) / (trl.length : ℚ) * 100)) :=
  backtest_rounding_inside_simulator true STOP_LOSS_PCT stStop (mkStopBar 19) (mkStopBar 20)
    (mkTrade 19 10.02 20 9.519 ExitReason.stop_loss) (by decide)

/-- C9 counterexample to the claim as stated: the `barsRound` run enters
at the bar-19 close 10.123, but the Trade record stored by the simulator
carries `entry_price = 10.12` — the value is rounded inside
`backtest_strategy`, not kept at full precision until serialization. -/
theorem backtest_trade_precision_cex :
    (backtest_strategy tkT barsRound).map
        (fun r => r.trades.map fun tr => tr.entry_price) = some [10.12] ∧
    (barsRound.getD 19 dummyBar).close = 10.123 ∧
    (10.12 : ℚ) ≠ 10.123 :=
  ⟨by decide, by decide, by decide⟩
